import Mathlib

/-!
Shallow embedding of the joy signalling relay: the durable per-session
actor of `src/signal-worker/worker.js`, the plain in-memory
`src/signal-server/server.js`, and the `Room` actor of `src/dojo.js`.
JavaScript truthiness of the string-valued envelope fields is modelled
explicitly (absent and `""` are falsy); timestamps are naturals, and the
JS comparisons `now - t > window` / `now - t <= window` coincide with the
truncated-subtraction comparisons used here for every sign of `now - t`.
-/

namespace Joy

def MAX_HISTORY : Nat := 2000
def SESSION_RESUME_WINDOW_MS : Nat := 12 * 60 * 1000
def HOST_STALE_MS : Nat := SESSION_RESUME_WINDOW_MS
def SERVER_MAX_HISTORY : Nat := 500

/-- JS truthiness of a string. -/
def truthyS (s : String) : Bool := s != ""

/-- JS truthiness of an optional string field (absent or empty is falsy). -/
def truthyO : Option String → Bool
  | some s => s != ""
  | none => false

/-- Message envelope: the reserved wire fields used by the relay
(absent fields encoded as `none`). -/
structure Envelope where
  session : String := ""
  «from» : Option String := none
  «to» : Option String := none
  type : Option String := none
  transient : Bool := false
  seq : Nat := 0
  hostId : Option String := none
  granted : Option Bool := none
  ts : Nat := 0
deriving DecidableEq

/-- Durable key/value record of one session (keys `seq`, `messages`,
`host`, `hostUpdatedAt`, `lastActivity`, `snapshot`). -/
structure Storage where
  seq : Nat := 0
  messages : List Envelope := []
  host : Option String := none
  hostUpdatedAt : Nat := 0
  lastActivity : Nat := 0
  snapshot : Option Envelope := none
deriving DecidableEq

/-- Association-list model of a JS `Map`: lookup of the first entry with
the given key. -/
def mapGet {α β : Type} [DecidableEq α] : List (α × β) → α → Option β
  | [], _ => none
  | p :: rest, k => if p.1 = k then some p.2 else mapGet rest k

/-- `Map.set`: replace the existing entry in place, else append. -/
def mapSet {α β : Type} [DecidableEq α] : List (α × β) → α → β → List (α × β)
  | [], k, v => [(k, v)]
  | p :: rest, k, v => if p.1 = k then (k, v) :: rest else p :: mapSet rest k v

/-- `Map.delete`: remove the entry with the given key. -/
def mapDelete {α β : Type} [DecidableEq α] : List (α × β) → α → List (α × β)
  | [], _ => []
  | p :: rest, k => if p.1 = k then rest else p :: mapDelete rest k

/-- In-memory state of one `SignalSession` durable object, together with
its storage record. -/
structure SessionState where
  seq : Nat := 0
  messages : List Envelope := []
  hostId : Option String := none
  hostUpdatedAt : Nat := 0
  lastActivity : Nat := 0
  sessionId : String := ""
  clients : List (String × Nat) := []
  clientIds : List (Nat × String) := []
  storage : Storage := {}
deriving DecidableEq

/-- `SignalSession.isHostStale`. -/
def isHostStale (st : SessionState) (now : Nat) : Bool :=
  if !truthyO st.hostId then true
  else if st.hostUpdatedAt = 0 then true
  else decide (HOST_STALE_MS < now - st.hostUpdatedAt)

structure ClaimResult where
  granted : Bool
  hostId : Option String
deriving DecidableEq

/-- `SignalSession.claimHost`. -/
def claimHost (st : SessionState) (clientId : String) (now : Nat) :
    SessionState × ClaimResult :=
  let stale := isHostStale st now
  if !truthyO st.hostId || stale || st.hostId == some clientId then
    ({ st with
         hostId := some clientId
         hostUpdatedAt := now
         storage := { st.storage with host := some clientId, hostUpdatedAt := now } },
     { granted := true, hostId := some clientId })
  else
    (st, { granted := false, hostId := st.hostId })

/-- `SignalSession.refreshHostActivity`. -/
def refreshHostActivity (st : SessionState) (clientId : Option String) (now : Nat) :
    SessionState :=
  if !truthyO clientId || clientId != st.hostId then st
  else
    { st with
        hostUpdatedAt := now
        storage := { st.storage with host := st.hostId, hostUpdatedAt := now } }

/-- `SignalSession.ensureSessionActive`: initialize `lastActivity` on first
touch; reset the whole session (and delete the snapshot) once the resume
window has elapsed. -/
def ensureSessionActive (st : SessionState) (now : Nat) : SessionState :=
  if st.lastActivity = 0 then
    { st with
        lastActivity := now
        storage := { st.storage with lastActivity := now } }
  else if now - st.lastActivity ≤ SESSION_RESUME_WINDOW_MS then st
  else
    { st with
        seq := 0
        messages := []
        hostId := none
        hostUpdatedAt := 0
        lastActivity := now
        storage := { st.storage with
          seq := 0
          messages := []
          host := none
          hostUpdatedAt := 0
          lastActivity := now
          snapshot := none } }

/-- `SignalSession.touchSession`. -/
def touchSession (st : SessionState) (now : Nat) : SessionState :=
  { st with
      lastActivity := now
      storage := { st.storage with lastActivity := now } }

/-- `SignalSession.attachClient` (the `close` of a replaced handle is a
transport effect and carries no session state). -/
def attachClient (st : SessionState) (clientId : String) (socket : Nat) :
    SessionState :=
  let st :=
    match mapGet st.clients clientId with
    | some existing =>
        if existing ≠ socket then
          { st with clientIds := mapDelete st.clientIds existing }
        else st
    | none => st
  { st with
      clients := mapSet st.clients clientId socket
      clientIds := mapSet st.clientIds socket clientId }

/-- `SignalSession.webSocketClose`. -/
def webSocketClose (st : SessionState) (ws : Nat) : SessionState :=
  match mapGet st.clientIds ws with
  | some clientId =>
      if truthyS clientId then
        let st := { st with clientIds := mapDelete st.clientIds ws }
        if mapGet st.clients clientId == some ws then
          { st with clients := mapDelete st.clients clientId }
        else st
      else st
  | none => st

/-- Options of `persistAndBroadcast`. -/
structure BroadcastOpts where
  transient : Bool := false
  skipSenderId : Option String := none
deriving DecidableEq

/-- Recipients to which the fan-out loop of `persistAndBroadcast` calls
`socket.send`: skip a unicast mismatch, the excluded sender, and the
origin client. -/
def broadcastTargets (clients : List (String × Nat)) (msg : Envelope)
    (skipSenderId : Option String) : List (String × Nat) :=
  clients.filter (fun p =>
    !(truthyO msg.«to» && msg.«to» != some p.1) &&
    !(truthyO skipSenderId && some p.1 == skipSenderId) &&
    !(truthyO msg.«from» && msg.«from» == some p.1))

/-- The synthetic acknowledgement object both host-claim handlers build:
`{session, type: 'host-ack', to, hostId, granted, ts, from: 'server'}`. -/
def hostAckEnvelope (session target : String) (cr : ClaimResult)
    (now : Nat) : Envelope :=
  { session := session
    type := some "host-ack"
    «to» := some target
    hostId := cr.hostId
    granted := some cr.granted
    ts := now
    «from» := some "server" }

/-- Recipients whose `send` did not throw, for a given writability map;
`persistAndBroadcast` ignores the outcome either way. -/
def deliveredTo (attempted : List (String × Nat)) (sendOk : Nat → Bool) :
    List (String × Nat) :=
  attempted.filter (fun p => sendOk p.2)

/-- `SignalSession.persistAndBroadcast`: assigns the next sequence number
unconditionally, touches the session, persists the bounded history unless
transient, and returns the stamped message together with the recipients
whose sockets are written.  Send errors are swallowed and change nothing,
so the result does not depend on socket writability. -/
def persistAndBroadcast (st : SessionState) (msg : Envelope)
    (opts : BroadcastOpts) (now : Nat) :
    SessionState × Envelope × List (String × Nat) :=
  let seqN := st.seq + 1
  let m := { msg with seq := seqN }
  let st := touchSession { st with seq := seqN } now
  let st :=
    if !opts.transient then
      let msgs := st.messages ++ [m]
      let msgs :=
        if MAX_HISTORY < msgs.length then msgs.drop (msgs.length - MAX_HISTORY)
        else msgs
      { st with
          messages := msgs
          storage := { st.storage with seq := seqN, messages := msgs } }
    else
      { st with storage := { st.storage with seq := seqN } }
  (st, m, broadcastTargets st.clients m opts.skipSenderId)

/-- The replay filter shared by the worker's GET handler and the
server's GET handler. -/
def sinceFilter (messages : List Envelope) (since : Nat) (clientId : String) :
    List Envelope :=
  messages.filter (fun msg =>
    if msg.seq ≤ since then false
    else if truthyO msg.«to» && msg.«to» != some clientId then false
    else if truthyS clientId && msg.«from» == some clientId then false
    else true)

/-- One processed message: the stamped envelope and the recipients its
fan-out wrote to. -/
abbrev Out := Envelope × List (String × Nat)

/-- The POST branch of `SignalSession.fetch`, after the session-id
validation (body parsed, `session` non-empty, `this.sessionId` set). -/
def postStep (st : SessionState) (msg : Envelope) (now : Nat) :
    SessionState × List Out :=
  let st := { st with sessionId := msg.session }
  let isTransient := msg.transient
  let st :=
    if msg.type == some "snapshot" then
      { st with storage := { st.storage with snapshot := some msg } }
    else st
  let mid :=
    if msg.type == some "host-claim" && truthyO msg.«from» then
      match msg.«from» with
      | some f =>
          let cr := claimHost st f now
          let ack := hostAckEnvelope msg.session f cr.2 now
          let br := persistAndBroadcast cr.1 ack {} now
          (br.1, [(br.2.1, br.2.2)])
      | none => (st, ([] : List Out))
    else (st, ([] : List Out))
  let st := refreshHostActivity mid.1 msg.«from» now
  let br := persistAndBroadcast st msg { transient := isTransient } now
  (br.1, mid.2 ++ [(br.2.1, br.2.2)])

/-- Result of one externally triggered step of the actor. -/
structure StepResult where
  state : SessionState
  outs : List Out := []
  response : Option (List Envelope) := none
  didReset : Bool := false
deriving DecidableEq

/-- Did this `now` fall past the resume window of `st` (the condition of
the reset branch of `ensureSessionActive`)? -/
def expiredB (st : SessionState) (now : Nat) : Bool :=
  st.lastActivity != 0 &&
    decide (SESSION_RESUME_WINDOW_MS < now - st.lastActivity)

/-- `SignalSession.webSocketMessage`.  `raw` is the parse result of the
frame (`none` on malformed JSON).  The snapshot store happens before the
lifecycle check, exactly as in the source. -/
def wsMessageStep (st : SessionState) (raw : Option Envelope) (ws : Nat)
    (now : Nat) : StepResult :=
  match raw with
  | none => { state := st }
  | some data0 =>
    match mapGet st.clientIds ws with
    | none => { state := st }
    | some clientId =>
      let sessionId := if truthyS st.sessionId then st.sessionId else data0.session
      if !truthyS clientId || !truthyS sessionId then { state := st }
      else
        let data :=
          { data0 with
              session := if truthyS data0.session then data0.session else sessionId
              «from» := if truthyO data0.«from» then data0.«from» else some clientId }
        let isTransient := data.transient
        let st :=
          if data.type == some "snapshot" then
            { st with storage := { st.storage with snapshot := some data } }
          else st
        let didReset := expiredB st now
        let st := ensureSessionActive st now
        if data.type == some "reattach" then
          let st := attachClient st clientId ws
          let st := refreshHostActivity st (some clientId) now
          let st := touchSession st now
          { state := st, didReset := didReset }
        else
          let mid :=
            if data.type == some "host-claim" then
              let cr := claimHost st clientId now
              let ack := hostAckEnvelope sessionId clientId cr.2 now
              let br := persistAndBroadcast cr.1 ack {} now
              (br.1, [(br.2.1, br.2.2)])
            else (st, ([] : List Out))
          let st := refreshHostActivity mid.1 (some clientId) now
          let br := persistAndBroadcast st data
            { transient := isTransient, skipSenderId := some clientId } now
          { state := br.1, outs := mid.2 ++ [(br.2.1, br.2.2)],
            didReset := didReset }

/-- The request shapes reaching `SignalSession.fetch` (method dispatch
after the front door routed `/signal`). -/
inductive Req where
  | options : Req
  | wsUpgrade (session client : String) (socket : Nat) : Req
  | get (session client : String) (since : Nat) (wantsSnapshot : Bool) : Req
  | post (msg : Envelope) : Req
deriving DecidableEq

/-- Method dispatch of `SignalSession.fetch`, after the entry lifecycle
check has produced `st`. -/
def fetchDispatch (st : SessionState) (req : Req) (now : Nat)
    (didReset : Bool) : StepResult :=
  match req with
  | .options => { state := st, didReset := didReset }
  | .wsUpgrade session client socket =>
      if !truthyS session || !truthyS client then
        { state := st, didReset := didReset }
      else
        let st := { st with sessionId := session }
        let st := attachClient st client socket
        let st := touchSession st now
        { state := st, didReset := didReset }
  | .get session client since wantsSnapshot =>
      if !truthyS session then { state := st, didReset := didReset }
      else
        let st := { st with sessionId := session }
        if wantsSnapshot then
          { state := st
            response := some (st.storage.snapshot.elim [] (fun e => [e]))
            didReset := didReset }
        else
          { state := st
            response := some (sinceFilter st.messages since client)
            didReset := didReset }
  | .post msg =>
      if !truthyS msg.session then { state := st, didReset := didReset }
      else
        let pr := postStep st msg now
        { state := pr.1, outs := pr.2, didReset := didReset }

/-- `SignalSession.fetch`: the lifecycle check runs at entry, before any
method-specific processing. -/
def fetchStep (st : SessionState) (req : Req) (now : Nat) : StepResult :=
  fetchDispatch (ensureSessionActive st now) req now (expiredB st now)

/-- One externally triggered operation on the actor. -/
inductive Op where
  | fetchOp (req : Req) (now : Nat) : Op
  | wsMsg (raw : Option Envelope) (ws : Nat) (now : Nat) : Op
  | wsClose (ws : Nat) : Op
deriving DecidableEq

def opStep (st : SessionState) : Op → StepResult
  | .fetchOp req now => fetchStep st req now
  | .wsMsg raw ws now => wsMessageStep st raw ws now
  | .wsClose ws => { state := webSocketClose st ws }

/-- Run a list of operations; collect all processed messages in order and
whether any lifecycle reset fired. -/
def runOps (st : SessionState) : List Op → SessionState × List Out × Bool
  | [] => (st, [], false)
  | op :: rest =>
      let r := opStep st op
      let rec1 := runOps r.state rest
      (rec1.1, r.outs ++ rec1.2.1, r.didReset || rec1.2.2)

/-! The in-memory variant `src/signal-server/server.js`. -/

/-- One session record of the in-memory server. -/
structure ServerSession where
  seq : Nat := 0
  messages : List Envelope := []
  clients : List (String × Nat) := []
deriving DecidableEq

/-- `pushMessage` of the server: unconditional bounded append. -/
def pushMessage (s : ServerSession) (m : Envelope) : ServerSession :=
  let msgs := s.messages ++ [m]
  let msgs :=
    if SERVER_MAX_HISTORY < msgs.length then
      msgs.drop (msgs.length - SERVER_MAX_HISTORY)
    else msgs
  { s with messages := msgs }

/-- The sequencing done by the server's POST handler and its socket
message handler alike: stamp `++seq` and push into history. -/
def serverProcess (s : ServerSession) (m : Envelope) :
    ServerSession × Envelope :=
  let m' := { m with seq := s.seq + 1 }
  let s := pushMessage { s with seq := s.seq + 1 } m'
  (s, m')

/-- Process a list of messages through the in-memory server session. -/
def serverRun (s : ServerSession) : List Envelope → ServerSession × List Envelope
  | [] => (s, [])
  | m :: rest =>
      let pr := serverProcess s m
      let rec1 := serverRun pr.1 rest
      (rec1.1, pr.2 :: rec1.2)

/-! The in-memory `Room` of `src/dojo.js`. -/

/-- `Room.broadcastRaw`: iterate the registry's sockets; a throwing
`send` deletes that one socket from the registry and the loop continues.
Returns the remaining registry and the sockets written successfully. -/
def broadcastRaw (clients : List Nat) (sendOk : Nat → Bool) :
    List Nat × List Nat :=
  clients.foldl
    (fun acc s =>
      if sendOk s then (acc.1, acc.2 ++ [s])
      else (acc.1.filter (fun x => x ≠ s), acc.2))
    (clients, [])

/-! Connection-registry traces for the inverse-maps invariant. -/

/-- A registry operation: an `attachClient` call or a socket close. -/
inductive RegOp where
  | attach (clientId : String) (socket : Nat) : RegOp
  | close (socket : Nat) : RegOp
deriving DecidableEq

def regStep (st : SessionState) : RegOp → SessionState
  | .attach c s => attachClient st c s
  | .close s => webSocketClose st s

def regRun (st : SessionState) : List RegOp → SessionState
  | [] => st
  | op :: rest => regRun (regStep st op) rest

/-- Guard satisfied by every `attachClient` call site in the source: the
socket being attached is fresh, or already attached to this same client
identifier (the `reattach` case). -/
def regOpOk (st : SessionState) : RegOp → Bool
  | .attach c s =>
      match mapGet st.clientIds s with
      | none => true
      | some c0 => c0 == c
  | .close _ => true

def regRunOk (st : SessionState) : List RegOp → Bool
  | [] => true
  | op :: rest => regOpOk st op && regRunOk (regStep st op) rest

/-- The two registry maps are mutual inverses. -/
def registryInverse (st : SessionState) : Prop :=
  ∀ c s, mapGet st.clients c = some s ↔ mapGet st.clientIds s = some c

/-- Keys of both registry maps are duplicate-free (as in a JS `Map`). -/
def registryWF (st : SessionState) : Prop :=
  (st.clients.map Prod.fst).Nodup ∧ (st.clientIds.map Prod.fst).Nodup

/-- The session/`from` defaulting the socket message handler applies to an
inbound frame (`data.session = data.session || sessionId`,
`data.from = data.from || clientId`). -/
def wsDefault (st : SessionState) (data0 : Envelope) (clientId : String) :
    Envelope :=
  { data0 with
      session := if truthyS data0.session then data0.session
                 else if truthyS st.sessionId then st.sessionId
                 else data0.session
      «from» := if truthyO data0.«from» then data0.«from» else some clientId }

/-! Concrete states and traces used to instantiate the theorems below. -/

/-- A session with one attached client, used as a base point. -/
def stWired : SessionState :=
  { seq := 3, lastActivity := 10, sessionId := "s",
    clients := [("alice", 1)], clientIds := [(1, "alice")] }

/-- The same session observed long after its last activity. -/
def stIdle : SessionState :=
  { seq := 3, lastActivity := 1, sessionId := "s",
    clients := [("alice", 1)], clientIds := [(1, "alice")] }

/-- A populated session used for the poll frame checks. -/
def stPolled : SessionState :=
  { seq := 5, messages := [{ session := "s", seq := 3 }], lastActivity := 1,
    hostId := some "ha", hostUpdatedAt := 1,
    storage := { seq := 5, messages := [{ session := "s", seq := 3 }],
                 lastActivity := 1, host := some "ha", hostUpdatedAt := 1 } }

/-- A mixed trace: connect, a socket host-claim, a transient post, a poll,
a close. -/
def traceSample : List Op :=
  [Op.fetchOp (Req.wsUpgrade "s" "alice" 1) 10,
   Op.wsMsg (some { session := "s", type := some "host-claim" }) 1 11,
   Op.fetchOp
     (Req.post { session := "s", transient := true, «from» := some "bob" }) 12,
   Op.fetchOp (Req.get "s" "bob" 0 false) 13,
   Op.wsClose 1]

/-- A guarded registry trace: fresh sockets and a reattach-style rebind. -/
def regTraceSample : List RegOp :=
  [RegOp.attach "a" 1, RegOp.attach "b" 2, RegOp.attach "a" 3, RegOp.close 2]

/-- The rebinding trace that the worker itself never produces: one socket
attached under two different client identifiers. -/
def regTraceRebind : List RegOp :=
  [RegOp.attach "a" 1, RegOp.attach "b" 1]

/-- A unicast envelope used in the poll examples. -/
def envAliceToBob : Envelope :=
  { session := "s"
    «from» := some "alice"
    «to» := some "bob"
    seq := 2 }

/-- A pull-path host-claim from bob. -/
def claimFromBob : Envelope :=
  { session := "s"
    type := some "host-claim"
    «from» := some "bob" }

/-! General list facts used below. -/

theorem drop_append_le {α : Type} (r : List α) {l : List α} :
    ∀ k, k ≤ l.length → (l ++ r).drop k = l.drop k ++ r := by
  induction l with
  | nil =>
      intro k hk
      have : k = 0 := Nat.le_zero.mp hk
      subst this; simp
  | cons a t ih =>
      intro k hk
      cases k with
      | zero => simp
      | succ k =>
          simp only [List.cons_append, List.drop_succ_cons]
          exact ih k (by simpa using hk)

theorem mem_drop_append {α : Type} {x : α} {r l : List α} {k : Nat}
    (hx : x ∈ r) (h : k ≤ l.length) : x ∈ (l ++ r).drop k := by
  rw [drop_append_le r k h]
  exact List.mem_append_right _ hx

/-! Frame lemmas: which state components each operation leaves alone. -/

theorem touchSession_frame (st : SessionState) (now : Nat) :
    (touchSession st now).seq = st.seq ∧
    (touchSession st now).messages = st.messages ∧
    (touchSession st now).hostId = st.hostId ∧
    (touchSession st now).hostUpdatedAt = st.hostUpdatedAt ∧
    (touchSession st now).clients = st.clients ∧
    (touchSession st now).clientIds = st.clientIds ∧
    (touchSession st now).storage.snapshot = st.storage.snapshot := by
  simp [touchSession]

theorem claimHost_frame (st : SessionState) (c : String) (now : Nat) :
    (claimHost st c now).1.seq = st.seq ∧
    (claimHost st c now).1.messages = st.messages ∧
    (claimHost st c now).1.lastActivity = st.lastActivity ∧
    (claimHost st c now).1.clients = st.clients ∧
    (claimHost st c now).1.clientIds = st.clientIds ∧
    (claimHost st c now).1.storage.seq = st.storage.seq ∧
    (claimHost st c now).1.storage.messages = st.storage.messages ∧
    (claimHost st c now).1.storage.snapshot = st.storage.snapshot := by
  simp only [claimHost]
  split <;> simp

theorem refreshHostActivity_frame (st : SessionState) (c : Option String)
    (now : Nat) :
    (refreshHostActivity st c now).seq = st.seq ∧
    (refreshHostActivity st c now).messages = st.messages ∧
    (refreshHostActivity st c now).hostId = st.hostId ∧
    (refreshHostActivity st c now).lastActivity = st.lastActivity ∧
    (refreshHostActivity st c now).clients = st.clients ∧
    (refreshHostActivity st c now).clientIds = st.clientIds ∧
    (refreshHostActivity st c now).storage.seq = st.storage.seq ∧
    (refreshHostActivity st c now).storage.messages = st.storage.messages ∧
    (refreshHostActivity st c now).storage.snapshot = st.storage.snapshot := by
  simp only [refreshHostActivity]
  split <;> simp

theorem attachClient_frame (st : SessionState) (c : String) (s : Nat) :
    (attachClient st c s).seq = st.seq ∧
    (attachClient st c s).messages = st.messages ∧
    (attachClient st c s).hostId = st.hostId ∧
    (attachClient st c s).hostUpdatedAt = st.hostUpdatedAt ∧
    (attachClient st c s).lastActivity = st.lastActivity ∧
    (attachClient st c s).storage = st.storage := by
  simp only [attachClient]
  split <;> (try split) <;> simp

theorem webSocketClose_frame (st : SessionState) (ws : Nat) :
    (webSocketClose st ws).seq = st.seq ∧
    (webSocketClose st ws).messages = st.messages ∧
    (webSocketClose st ws).hostId = st.hostId ∧
    (webSocketClose st ws).hostUpdatedAt = st.hostUpdatedAt ∧
    (webSocketClose st ws).lastActivity = st.lastActivity ∧
    (webSocketClose st ws).storage = st.storage := by
  simp only [webSocketClose]
  split <;> (try split) <;> (try split) <;> simp

theorem ensureSessionActive_frame_of_notExpired (st : SessionState) (now : Nat)
    (h : expiredB st now = false) :
    (ensureSessionActive st now).seq = st.seq ∧
    (ensureSessionActive st now).messages = st.messages ∧
    (ensureSessionActive st now).hostId = st.hostId ∧
    (ensureSessionActive st now).hostUpdatedAt = st.hostUpdatedAt ∧
    (ensureSessionActive st now).clients = st.clients ∧
    (ensureSessionActive st now).clientIds = st.clientIds ∧
    (ensureSessionActive st now).storage.seq = st.storage.seq ∧
    (ensureSessionActive st now).storage.messages = st.storage.messages ∧
    (ensureSessionActive st now).storage.snapshot = st.storage.snapshot := by
  simp only [ensureSessionActive]
  by_cases h0 : st.lastActivity = 0
  · simp [h0]
  · have hwin : now - st.lastActivity ≤ SESSION_RESUME_WINDOW_MS := by
      by_contra hlt
      push_neg at hlt
      have hexp : expiredB st now = true := by
        simp only [expiredB, Bool.and_eq_true, bne_iff_ne, ne_eq,
          decide_eq_true_eq]
        exact ⟨h0, hlt⟩
      rw [hexp] at h
      exact Bool.noConfusion h
    simp [h0, hwin]

theorem pAB_state_seq (st : SessionState) (msg : Envelope)
    (opts : BroadcastOpts) (now : Nat) :
    (persistAndBroadcast st msg opts now).1.seq = st.seq + 1 := by
  simp only [persistAndBroadcast, touchSession]
  split <;> rfl

theorem pAB_msg (st : SessionState) (msg : Envelope) (opts : BroadcastOpts)
    (now : Nat) :
    (persistAndBroadcast st msg opts now).2.1 = { msg with seq := st.seq + 1 } := by
  simp only [persistAndBroadcast]

theorem pAB_frame (st : SessionState) (msg : Envelope) (opts : BroadcastOpts)
    (now : Nat) :
    (persistAndBroadcast st msg opts now).1.hostId = st.hostId ∧
    (persistAndBroadcast st msg opts now).1.hostUpdatedAt = st.hostUpdatedAt ∧
    (persistAndBroadcast st msg opts now).1.clients = st.clients ∧
    (persistAndBroadcast st msg opts now).1.clientIds = st.clientIds ∧
    (persistAndBroadcast st msg opts now).1.lastActivity = now ∧
    (persistAndBroadcast st msg opts now).1.storage.snapshot =
      st.storage.snapshot ∧
    (persistAndBroadcast st msg opts now).1.storage.seq = st.seq + 1 := by
  simp only [persistAndBroadcast, touchSession]
  split <;> simp

theorem pAB_messages_transient (st : SessionState) (msg : Envelope)
    (opts : BroadcastOpts) (now : Nat) (h : opts.transient = true) :
    (persistAndBroadcast st msg opts now).1.messages = st.messages ∧
    (persistAndBroadcast st msg opts now).1.storage.messages =
      st.storage.messages := by
  simp [persistAndBroadcast, touchSession, h]

theorem pAB_messages_append (st : SessionState) (msg : Envelope)
    (opts : BroadcastOpts) (now : Nat) (h : opts.transient = false) :
    (persistAndBroadcast st msg opts now).1.messages =
      (st.messages ++ [{ msg with seq := st.seq + 1 }]).drop
        (st.messages.length + 1 - MAX_HISTORY) ∧
    (persistAndBroadcast st msg opts now).1.storage.messages =
      (persistAndBroadcast st msg opts now).1.messages := by
  simp only [persistAndBroadcast, touchSession, h, Bool.not_false, if_pos]
  constructor
  · split
    · next hlen => simp
    · next hlen =>
        have h0 : st.messages.length + 1 - MAX_HISTORY = 0 := by
          simp only [List.length_append, List.length_cons, List.length_nil]
            at hlen
          omega
        simp [h0]
  · trivial

theorem pAB_att (st : SessionState) (msg : Envelope) (opts : BroadcastOpts)
    (now : Nat) :
    (persistAndBroadcast st msg opts now).2.2 =
      broadcastTargets st.clients { msg with seq := st.seq + 1 }
        opts.skipSenderId := by
  simp only [persistAndBroadcast, touchSession]
  split <;> rfl

/-! Sequence bookkeeping: each step stamps a contiguous block of sequence
numbers onto the messages it processes. -/

theorem postStep_seq (st : SessionState) (msg : Envelope) (now : Nat) :
    (postStep st msg now).2.map (fun o => o.1.seq) =
      List.range' (st.seq + 1) (postStep st msg now).2.length ∧
    (postStep st msg now).1.seq = st.seq + (postStep st msg now).2.length := by
  by_cases hc : (msg.type == some "host-claim" && truthyO msg.«from») = true
  · have hf : truthyO msg.«from» = true := ((Bool.and_eq_true _ _).mp hc).2
    cases hmf : msg.«from» with
    | none => rw [hmf] at hf; simp [truthyO] at hf
    | some f =>
        have hcond : (msg.type == some "host-claim" && truthyO (some f)) = true := by
          rw [← hmf]; exact hc
        by_cases hsnap : msg.type = some "snapshot" <;>
          simp [postStep, hmf, hcond, hsnap, pAB_state_seq, pAB_msg,
            claimHost_frame, refreshHostActivity_frame, List.range'_succ]
  · have hc' : (msg.type == some "host-claim" && truthyO msg.«from») = false := by
      simpa using hc
    by_cases hsnap : msg.type = some "snapshot" <;>
      simp [postStep, hc', hsnap, pAB_state_seq, pAB_msg,
        refreshHostActivity_frame, List.range'_succ]

theorem wsMessageStep_seq (st : SessionState) (raw : Option Envelope) (ws : Nat)
    (now : Nat) (h : (wsMessageStep st raw ws now).didReset = false) :
    (wsMessageStep st raw ws now).outs.map (fun o => o.1.seq) =
      List.range' (st.seq + 1) (wsMessageStep st raw ws now).outs.length ∧
    (wsMessageStep st raw ws now).state.seq =
      st.seq + (wsMessageStep st raw ws now).outs.length := by
  cases raw with
  | none => simp [wsMessageStep]
  | some data0 =>
    cases hcid : mapGet st.clientIds ws with
    | none => simp [wsMessageStep, hcid]
    | some clientId =>
      by_cases hg : (!truthyS clientId ||
          !truthyS (if truthyS st.sessionId then st.sessionId
                    else data0.session)) = true
      · simp [wsMessageStep, hcid, hg]
      · have hg' : (!truthyS clientId ||
            !truthyS (if truthyS st.sessionId then st.sessionId
                      else data0.session)) = false := by
          simpa using hg
        by_cases hsnap : data0.type = some "snapshot"
        · simp [wsMessageStep, hcid, hg', hsnap] at h ⊢
          have hE := ensureSessionActive_frame_of_notExpired _ now h
          simp [hE, pAB_state_seq, pAB_msg, refreshHostActivity_frame,
            List.range'_succ]
        · by_cases hre : data0.type = some "reattach"
          · simp [wsMessageStep, hcid, hg', hsnap, hre] at h ⊢
            have hE := ensureSessionActive_frame_of_notExpired _ now h
            simp [hE, attachClient_frame, refreshHostActivity_frame,
              touchSession_frame]
          · by_cases hclaim : data0.type = some "host-claim"
            · simp [wsMessageStep, hcid, hg', hsnap, hre, hclaim] at h ⊢
              have hE := ensureSessionActive_frame_of_notExpired _ now h
              simp [hE, pAB_state_seq, pAB_msg, claimHost_frame,
                refreshHostActivity_frame, List.range'_succ]
            · simp [wsMessageStep, hcid, hg', hsnap, hre, hclaim] at h ⊢
              have hE := ensureSessionActive_frame_of_notExpired _ now h
              simp [hE, pAB_state_seq, pAB_msg, refreshHostActivity_frame,
                List.range'_succ]

theorem fetchDispatch_didReset (st : SessionState) (req : Req) (now : Nat)
    (d : Bool) : (fetchDispatch st req now d).didReset = d := by
  cases req <;> simp only [fetchDispatch] <;> (repeat' split) <;> rfl

theorem fetchDispatch_seq (st : SessionState) (req : Req) (now : Nat)
    (d : Bool) :
    (fetchDispatch st req now d).outs.map (fun o => o.1.seq) =
      List.range' (st.seq + 1) (fetchDispatch st req now d).outs.length ∧
    (fetchDispatch st req now d).state.seq =
      st.seq + (fetchDispatch st req now d).outs.length := by
  cases req with
  | options => simp [fetchDispatch]
  | wsUpgrade s c sock =>
      simp only [fetchDispatch]
      split <;> simp [attachClient_frame, touchSession_frame]
  | get s c n w =>
      simp only [fetchDispatch]
      (repeat' split) <;> simp
  | post msg =>
      simp only [fetchDispatch]
      split
      · simp
      · have hp := postStep_seq st msg now
        simpa using hp

theorem opStep_seq (st : SessionState) (op : Op)
    (h : (opStep st op).didReset = false) :
    (opStep st op).outs.map (fun o => o.1.seq) =
      List.range' (st.seq + 1) (opStep st op).outs.length ∧
    (opStep st op).state.seq = st.seq + (opStep st op).outs.length := by
  cases op with
  | wsMsg raw ws now => exact wsMessageStep_seq st raw ws now h
  | wsClose ws => simp [opStep, webSocketClose_frame]
  | fetchOp req now =>
      have hd : expiredB st now = false := by
        have := fetchDispatch_didReset (ensureSessionActive st now) req now
          (expiredB st now)
        simpa [opStep, fetchStep, this] using h
      have hE := ensureSessionActive_frame_of_notExpired st now hd
      have hf := fetchDispatch_seq (ensureSessionActive st now) req now
        (expiredB st now)
      simpa [opStep, fetchStep, hE.1] using hf

theorem runOps_seq (ops : List Op) : ∀ st : SessionState,
    (runOps st ops).2.2 = false →
    (runOps st ops).2.1.map (fun o => o.1.seq) =
      List.range' (st.seq + 1) (runOps st ops).2.1.length ∧
    (runOps st ops).1.seq = st.seq + (runOps st ops).2.1.length := by
  induction ops with
  | nil => intro st h; simp [runOps]
  | cons op rest ih =>
      intro st h
      simp only [runOps] at h ⊢
      have hsplit : (opStep st op).didReset = false ∧
          (runOps (opStep st op).state rest).2.2 = false := by
        constructor
        · cases hb : (opStep st op).didReset
          · rfl
          · rw [hb] at h; simp at h
        · cases hb : (runOps (opStep st op).state rest).2.2
          · rfl
          · rw [hb] at h; simp at h
      obtain ⟨m1, s1⟩ := opStep_seq st op hsplit.1
      obtain ⟨m2, s2⟩ := ih (opStep st op).state hsplit.2
      rw [s1] at m2 s2
      constructor
      · rw [List.map_append, m1, m2, List.length_append]
        have e : st.seq + (opStep st op).outs.length + 1 =
            st.seq + 1 + (opStep st op).outs.length := by omega
        rw [e, List.range'_append_1, Nat.add_comm
          (runOps (opStep st op).state rest).2.1.length
          (opStep st op).outs.length]
      · rw [s2, List.length_append, Nat.add_assoc]

theorem serverRun_seq (msgs : List Envelope) : ∀ s : ServerSession,
    (serverRun s msgs).2.map Envelope.seq =
      List.range' (s.seq + 1) msgs.length ∧
    (serverRun s msgs).1.seq = s.seq + msgs.length := by
  induction msgs with
  | nil => intro s; simp [serverRun]
  | cons m rest ih =>
      intro s
      simp only [serverRun]
      obtain ⟨m2, s2⟩ := ih (serverProcess s m).1
      have hp : (serverProcess s m).1.seq = s.seq + 1 := by
        simp only [serverProcess, pushMessage]
      rw [hp] at m2 s2
      constructor
      · simp only [List.map_cons, m2, List.length_cons, List.range'_succ]
        have hm : (serverProcess s m).2.seq = s.seq + 1 := by
          simp [serverProcess]
        rw [hm]
      · simp only [List.length_cons, s2]
        omega

/-! Association-list map lemmas (JS `Map` get/set/delete laws). -/

theorem mapGet_set_self {α β : Type} [DecidableEq α] (m : List (α × β))
    (k : α) (v : β) : mapGet (mapSet m k v) k = some v := by
  induction m with
  | nil => simp [mapSet, mapGet]
  | cons p rest ih =>
      by_cases h : p.1 = k <;> simp [mapSet, mapGet, h, ih]

theorem mapGet_set_ne {α β : Type} [DecidableEq α] (m : List (α × β))
    {k k' : α} (v : β) (h : k' ≠ k) :
    mapGet (mapSet m k v) k' = mapGet m k' := by
  induction m with
  | nil => simp [mapSet, mapGet, Ne.symm h]
  | cons p rest ih =>
      by_cases hp : p.1 = k
      · subst hp
        simp [mapSet, mapGet, Ne.symm h]
      · by_cases hp' : p.1 = k' <;> simp [mapSet, mapGet, hp, hp', h, ih]

theorem mapGet_eq_none_of_not_mem {α β : Type} [DecidableEq α]
    {m : List (α × β)} {k : α} (h : k ∉ m.map Prod.fst) :
    mapGet m k = none := by
  induction m with
  | nil => rfl
  | cons p rest ih =>
      simp only [List.map_cons, List.mem_cons, not_or] at h
      have h1 : ¬ p.1 = k := fun hh => h.1 hh.symm
      simp [mapGet, h1, ih h.2]

theorem mapGet_delete_self {α β : Type} [DecidableEq α] {m : List (α × β)}
    (k : α) (hnd : (m.map Prod.fst).Nodup) :
    mapGet (mapDelete m k) k = none := by
  induction m with
  | nil => rfl
  | cons p rest ih =>
      simp only [List.map_cons, List.nodup_cons] at hnd
      by_cases h : p.1 = k
      · subst h
        simpa [mapDelete] using mapGet_eq_none_of_not_mem hnd.1
      · simp [mapDelete, mapGet, h, ih hnd.2]

theorem mapGet_delete_ne {α β : Type} [DecidableEq α] (m : List (α × β))
    {k k' : α} (h : k' ≠ k) :
    mapGet (mapDelete m k) k' = mapGet m k' := by
  induction m with
  | nil => rfl
  | cons p rest ih =>
      by_cases hp : p.1 = k
      · subst hp
        simp [mapDelete, mapGet, Ne.symm h]
      · by_cases hp' : p.1 = k' <;> simp [mapDelete, mapGet, hp, hp', h, ih]

theorem mapSet_keys_mem {α β : Type} [DecidableEq α] (m : List (α × β))
    (k : α) (v : β) :
    ∀ x ∈ (mapSet m k v).map Prod.fst, x = k ∨ x ∈ m.map Prod.fst := by
  induction m with
  | nil => simp [mapSet]
  | cons p rest ih =>
      by_cases h : p.1 = k
      · simp [mapSet, h]
      · rw [show mapSet (p :: rest) k v = p :: mapSet rest k v by
          simp [mapSet, h]]
        simp only [List.map_cons, List.mem_cons]
        intro x hx
        rcases hx with hx | hx
        · exact Or.inr (Or.inl hx)
        · rcases ih x hx with hx | hx
          · exact Or.inl hx
          · exact Or.inr (Or.inr hx)

theorem mapSet_keys_nodup {α β : Type} [DecidableEq α] {m : List (α × β)}
    (k : α) (v : β) (hnd : (m.map Prod.fst).Nodup) :
    ((mapSet m k v).map Prod.fst).Nodup := by
  induction m with
  | nil => simp [mapSet]
  | cons p rest ih =>
      simp only [List.map_cons, List.nodup_cons] at hnd
      by_cases h : p.1 = k
      · subst h
        simpa [mapSet] using hnd
      · rw [show mapSet (p :: rest) k v = p :: mapSet rest k v by
          simp [mapSet, h]]
        simp only [List.map_cons, List.nodup_cons]
        exact ⟨fun hmem =>
          (mapSet_keys_mem rest k v _ hmem).elim h hnd.1, ih hnd.2⟩

theorem mapDelete_sublist {α β : Type} [DecidableEq α] (m : List (α × β))
    (k : α) : (mapDelete m k).Sublist m := by
  induction m with
  | nil => simp [mapDelete]
  | cons p rest ih =>
      by_cases h : p.1 = k
      · rw [show mapDelete (p :: rest) k = rest by simp [mapDelete, h]]
        exact List.sublist_cons_self p rest
      · simpa [mapDelete, h] using ih.cons₂ p

theorem mapDelete_keys_nodup {α β : Type} [DecidableEq α]
    {m : List (α × β)} (k : α) (hnd : (m.map Prod.fst).Nodup) :
    ((mapDelete m k).map Prod.fst).Nodup :=
  hnd.sublist ((mapDelete_sublist m k).map Prod.fst)

/-! Preservation of the inverse-maps invariant by the registry
operations, under the guard satisfied at every call site. -/

theorem attachClient_preserves_registry (st : SessionState) (c : String)
    (s : Nat) (hInv : registryInverse st) (hWF : registryWF st)
    (hok : regOpOk st (RegOp.attach c s) = true) :
    registryInverse (attachClient st c s) ∧
    registryWF (attachClient st c s) := by
  obtain ⟨hnd1, hnd2⟩ := hWF
  have hok' : ∀ c0, mapGet st.clientIds s = some c0 → c0 = c := by
    intro c0 h0
    simp only [regOpOk, h0] at hok
    exact eq_of_beq hok
  rcases hCL : mapGet st.clients c with _ | e
  · -- no existing handle for `c`
    have hA : attachClient st c s =
        { st with clients := mapSet st.clients c s,
                  clientIds := mapSet st.clientIds s c } := by
      simp [attachClient, hCL]
    rw [hA]
    refine ⟨?_, mapSet_keys_nodup c s hnd1, mapSet_keys_nodup s c hnd2⟩
    intro c' s'
    by_cases hc' : c' = c
    · rw [hc']
      by_cases hs' : s' = s
      · rw [hs']
        simp [mapGet_set_self]
      · rw [mapGet_set_self, mapGet_set_ne _ c hs']
        constructor
        · intro hL
          exact absurd (Option.some.inj hL) (fun hh => hs' hh.symm)
        · intro hR
          exact absurd ((hInv c s').mpr hR) (by simp [hCL])
    · by_cases hs' : s' = s
      · rw [hs', mapGet_set_ne _ s hc', mapGet_set_self]
        constructor
        · intro hL
          exact absurd (hok' c' ((hInv c' s).mp hL)) hc'
        · intro hR
          exact absurd (Option.some.inj hR).symm hc'
      · rw [mapGet_set_ne _ s hc', mapGet_set_ne _ c hs']
        exact hInv c' s'
  · -- existing handle `e` for `c`
    by_cases he : e = s
    · -- the existing handle is this very socket: no stale cleanup
      have hCLs : mapGet st.clients c = some s := by rw [← he]; exact hCL
      have hB : attachClient st c s =
          { st with clients := mapSet st.clients c s,
                    clientIds := mapSet st.clientIds s c } := by
        simp [attachClient, hCL, he]
      rw [hB]
      refine ⟨?_, mapSet_keys_nodup c s hnd1, mapSet_keys_nodup s c hnd2⟩
      intro c' s'
      by_cases hc' : c' = c
      · rw [hc']
        by_cases hs' : s' = s
        · rw [hs']
          simp [mapGet_set_self]
        · rw [mapGet_set_self, mapGet_set_ne _ c hs']
          constructor
          · intro hL
            exact absurd (Option.some.inj hL) (fun hh => hs' hh.symm)
          · intro hR
            have hx := (hInv c s').mpr hR
            rw [hCLs] at hx
            exact absurd (Option.some.inj hx).symm hs'
      · by_cases hs' : s' = s
        · rw [hs', mapGet_set_ne _ s hc', mapGet_set_self]
          constructor
          · intro hL
            exact absurd (hok' c' ((hInv c' s).mp hL)) hc'
          · intro hR
            exact absurd (Option.some.inj hR).symm hc'
        · rw [mapGet_set_ne _ s hc', mapGet_set_ne _ c hs']
          exact hInv c' s'
    · -- `c` moves from stale socket `e` to `s`: `e` is unmapped first
      have hCIe : mapGet st.clientIds e = some c := (hInv c e).mp hCL
      have hC : attachClient st c s =
          { st with clients := mapSet st.clients c s,
                    clientIds := mapSet (mapDelete st.clientIds e) s c } := by
        simp [attachClient, hCL, he]
      rw [hC]
      refine ⟨?_, mapSet_keys_nodup c s hnd1,
        mapSet_keys_nodup s c (mapDelete_keys_nodup e hnd2)⟩
      intro c' s'
      by_cases hc' : c' = c
      · rw [hc']
        by_cases hs' : s' = s
        · rw [hs']
          simp [mapGet_set_self]
        · rw [mapGet_set_self, mapGet_set_ne _ c hs']
          by_cases hse : s' = e
          · rw [hse, mapGet_delete_self e hnd2]
            constructor
            · intro hL
              exact absurd (Option.some.inj hL).symm he
            · intro hR
              exact Option.noConfusion hR
          · rw [mapGet_delete_ne _ hse]
            constructor
            · intro hL
              exact absurd (Option.some.inj hL) (fun hh => hs' hh.symm)
            · intro hR
              have hx := (hInv c s').mpr hR
              rw [hCL] at hx
              exact absurd (Option.some.inj hx).symm hse
      · by_cases hs' : s' = s
        · rw [hs', mapGet_set_ne _ s hc', mapGet_set_self]
          constructor
          · intro hL
            exact absurd (hok' c' ((hInv c' s).mp hL)) hc'
          · intro hR
            exact absurd (Option.some.inj hR).symm hc'
        · rw [mapGet_set_ne _ s hc', mapGet_set_ne _ c hs']
          by_cases hse : s' = e
          · rw [hse, mapGet_delete_self e hnd2]
            constructor
            · intro hL
              have hx := (hInv c' e).mp hL
              rw [hCIe] at hx
              exact absurd (Option.some.inj hx) (fun hh => hc' hh.symm)
            · intro hR
              exact Option.noConfusion hR
          · rw [mapGet_delete_ne _ hse]
            exact hInv c' s'

theorem webSocketClose_preserves_registry (st : SessionState) (ws : Nat)
    (hInv : registryInverse st) (hWF : registryWF st) :
    registryInverse (webSocketClose st ws) ∧
    registryWF (webSocketClose st ws) := by
  obtain ⟨hnd1, hnd2⟩ := hWF
  rcases hCI : mapGet st.clientIds ws with _ | cid
  · simp only [webSocketClose, hCI]
    exact ⟨hInv, hnd1, hnd2⟩
  · by_cases htr : truthyS cid = true
    · have hCL : mapGet st.clients cid = some ws := (hInv cid ws).mpr hCI
      have hD : webSocketClose st ws =
          { st with clients := mapDelete st.clients cid,
                    clientIds := mapDelete st.clientIds ws } := by
        simp [webSocketClose, hCI, htr, hCL]
      rw [hD]
      refine ⟨?_, mapDelete_keys_nodup cid hnd1, mapDelete_keys_nodup ws hnd2⟩
      intro c' s'
      by_cases hc' : c' = cid
      · rw [hc', mapGet_delete_self cid hnd1]
        by_cases hs' : s' = ws
        · rw [hs', mapGet_delete_self ws hnd2]
          simp
        · rw [mapGet_delete_ne _ hs']
          constructor
          · intro hL
            exact Option.noConfusion hL
          · intro hR
            have hx := (hInv cid s').mpr hR
            rw [hCL] at hx
            exact absurd (Option.some.inj hx).symm hs'
      · rw [mapGet_delete_ne _ hc']
        by_cases hs' : s' = ws
        · rw [hs', mapGet_delete_self ws hnd2]
          constructor
          · intro hL
            have hx := (hInv c' ws).mp hL
            rw [hCI] at hx
            exact absurd (Option.some.inj hx) (fun hh => hc' hh.symm)
          · intro hR
            exact Option.noConfusion hR
        · rw [mapGet_delete_ne _ hs']
          exact hInv c' s'
    · have htr' : truthyS cid = false := by
        cases hb : truthyS cid
        · rfl
        · exact absurd hb htr
      simp only [webSocketClose, hCI, htr', Bool.false_eq_true, if_false]
      exact ⟨hInv, hnd1, hnd2⟩

theorem regRun_preserves_registry (ops : List RegOp) :
    ∀ st : SessionState, registryInverse st → registryWF st →
      regRunOk st ops = true →
      registryInverse (regRun st ops) ∧ registryWF (regRun st ops) := by
  induction ops with
  | nil => intro st h1 h2 _; exact ⟨h1, h2⟩
  | cons op rest ih =>
      intro st h1 h2 hok
      have hok1 : regOpOk st op = true := by
        cases hb : regOpOk st op
        · rw [regRunOk, hb, Bool.false_and] at hok
          exact Bool.noConfusion hok
        · rfl
      have hok2 : regRunOk (regStep st op) rest = true := by
        rw [regRunOk, hok1, Bool.true_and] at hok
        exact hok
      have hstep : registryInverse (regStep st op) ∧
          registryWF (regStep st op) := by
        cases op with
        | attach c s => exact attachClient_preserves_registry st c s h1 h2 hok1
        | close s => exact webSocketClose_preserves_registry st s h1 h2
      exact ih (regStep st op) hstep.1 hstep.2 hok2

/-! Lifecycle and bounded-history helpers. -/

theorem ensureSessionActive_eq_self (st : SessionState) (now : Nat)
    (hla : st.lastActivity ≠ 0)
    (hw : now - st.lastActivity ≤ SESSION_RESUME_WINDOW_MS) :
    ensureSessionActive st now = st := by
  simp [ensureSessionActive, hla, hw]

theorem ensureSessionActive_reset (st : SessionState) (now : Nat)
    (hla : st.lastActivity ≠ 0)
    (hw : SESSION_RESUME_WINDOW_MS < now - st.lastActivity) :
    ensureSessionActive st now =
      { st with
          seq := 0
          messages := []
          hostId := none
          hostUpdatedAt := 0
          lastActivity := now
          storage := { st.storage with
            seq := 0
            messages := []
            host := none
            hostUpdatedAt := 0
            lastActivity := now
            snapshot := none } } := by
  simp [ensureSessionActive, hla, Nat.not_le.mpr hw]

theorem expiredB_true (st : SessionState) (now : Nat)
    (hla : st.lastActivity ≠ 0)
    (hw : SESSION_RESUME_WINDOW_MS < now - st.lastActivity) :
    expiredB st now = true := by
  simp [expiredB, hla, hw]

theorem drop_bound {α : Type} (l : List α) (x : α) (M : Nat) :
    ((l ++ [x]).drop (l.length + 1 - M)).length ≤ M := by
  simp only [List.length_drop, List.length_append, List.length_cons,
    List.length_nil]
  omega

theorem broadcastRaw_foldl (ok : Nat → Bool) :
    ∀ (l acc1 acc2 : List Nat),
      (l.foldl
        (fun acc s =>
          if ok s then (acc.1, acc.2 ++ [s])
          else (acc.1.filter (fun x => x ≠ s), acc.2))
        (acc1, acc2)) =
      (acc1.filter (fun x => ok x || !(l.contains x)),
       acc2 ++ l.filter ok) := by
  intro l
  induction l with
  | nil =>
      intro acc1 acc2
      simp
  | cons s t ih =>
      intro acc1 acc2
      simp only [List.foldl_cons]
      by_cases hs : ok s = true
      · rw [if_pos hs, ih, Prod.mk.injEq]
        constructor
        · apply List.filter_congr
          intro x _
          by_cases hx : x = s
          · rw [hx]
            simp [hs]
          · simp [List.contains_cons, hx]
        · simp [List.filter_cons, hs]
      · have hs' : ok s = false := by
          cases hb : ok s
          · rfl
          · exact absurd hb hs
        rw [if_neg hs, ih, Prod.mk.injEq]
        constructor
        · rw [List.filter_filter]
          apply List.filter_congr
          intro x _
          by_cases hx : x = s
          · rw [hx]
            simp [hs', List.contains_cons]
          · simp [List.contains_cons, hx]
        · simp [List.filter_cons, hs']

theorem broadcastRaw_spec (clients : List Nat) (ok : Nat → Bool) :
    (broadcastRaw clients ok).1 = clients.filter ok ∧
    (broadcastRaw clients ok).2 = clients.filter ok := by
  have h := broadcastRaw_foldl ok clients clients []
  constructor
  · rw [broadcastRaw, h]
    apply List.filter_congr
    intro x hx
    have hc : clients.contains x = true := List.elem_eq_true_of_mem hx
    simp only [hc, Bool.not_true, Bool.or_false]
  · rw [broadcastRaw, h]
    simp

/-! Survival of freshly appended entries under FIFO eviction. -/

theorem mem_last_drop {α : Type} (l : List α) (a : α) (k : Nat)
    (hk : k ≤ l.length) : a ∈ (l ++ [a]).drop k :=
  mem_drop_append (by simp) hk

theorem mem_second_last_drop {α : Type} (l : List α) (a b : α) (M : Nat)
    (hM : 2 ≤ M) :
    a ∈ (((l ++ [a]).drop (l.length + 1 - M)) ++ [b]).drop
        ((((l ++ [a]).drop (l.length + 1 - M)).length + 1) - M) := by
  have hk1 : l.length + 1 - M ≤ l.length := by omega
  rw [drop_append_le _ _ hk1, List.append_assoc]
  apply mem_drop_append (by simp)
  simp only [List.length_append, List.length_cons, List.length_nil,
    List.length_drop]
  omega

/-! Branch characterizations of the two host-claim handling paths and of
the generic socket relay path. -/

theorem postStep_hostClaim (st : SessionState) (msg : Envelope) (now : Nat)
    (f : String) (ht : msg.type = some "host-claim")
    (hf : msg.«from» = some f) (htr : truthyS f = true) :
    postStep st msg now =
      (let st1 : SessionState := { st with sessionId := msg.session }
       let cr := claimHost st1 f now
       let ack := hostAckEnvelope msg.session f cr.2 now
       let br := persistAndBroadcast cr.1 ack {} now
       let st2 := refreshHostActivity br.1 msg.«from» now
       let br2 := persistAndBroadcast st2 msg
         { transient := msg.transient } now
       (br2.1, [(br.2.1, br.2.2), (br2.2.1, br2.2.2)])) := by
  have htr' : truthyO (some f) = true := htr
  simp [postStep, ht, hf, htr']

theorem wsMessageStep_hostClaim (st : SessionState) (data0 : Envelope)
    (ws now : Nat) (clientId : String)
    (hcid : mapGet st.clientIds ws = some clientId)
    (hc : truthyS clientId = true)
    (hs : truthyS (if truthyS st.sessionId then st.sessionId
                   else data0.session) = true)
    (ht : data0.type = some "host-claim") :
    wsMessageStep st (some data0) ws now =
      (let sessionId := if truthyS st.sessionId then st.sessionId
                        else data0.session
       let data := wsDefault st data0 clientId
       let stE := ensureSessionActive st now
       let cr := claimHost stE clientId now
       let ack := hostAckEnvelope sessionId clientId cr.2 now
       let br := persistAndBroadcast cr.1 ack {} now
       let st2 := refreshHostActivity br.1 (some clientId) now
       let br2 := persistAndBroadcast st2 data
         { transient := data0.transient, skipSenderId := some clientId } now
       { state := br2.1, outs := [(br.2.1, br.2.2), (br2.2.1, br2.2.2)],
         didReset := expiredB st now }) := by
  have hg' : (!truthyS clientId ||
      !truthyS (if truthyS st.sessionId then st.sessionId
                else data0.session)) = false := by
    simp [hc, hs]
  simp [wsMessageStep, hcid, hg', ht, wsDefault]

theorem wsMessageStep_nonReattach (st : SessionState) (data0 : Envelope)
    (ws now : Nat) (clientId : String)
    (hcid : mapGet st.clientIds ws = some clientId)
    (hc : truthyS clientId = true)
    (hs : truthyS (if truthyS st.sessionId then st.sessionId
                   else data0.session) = true)
    (hre : data0.type ≠ some "reattach") :
    ∃ (stMid : SessionState) (outs0 : List Out),
      stMid.clients = st.clients ∧
      (wsMessageStep st (some data0) ws now).state =
        (persistAndBroadcast stMid (wsDefault st data0 clientId)
          { transient := data0.transient, skipSenderId := some clientId }
          now).1 ∧
      (wsMessageStep st (some data0) ws now).outs =
        outs0 ++
          [((persistAndBroadcast stMid (wsDefault st data0 clientId)
              { transient := data0.transient, skipSenderId := some clientId }
              now).2.1,
            (persistAndBroadcast stMid (wsDefault st data0 clientId)
              { transient := data0.transient, skipSenderId := some clientId }
              now).2.2)] := by
  have hg' : (!truthyS clientId ||
      !truthyS (if truthyS st.sessionId then st.sessionId
                else data0.session)) = false := by
    simp [hc, hs]
  have hrefC : ∀ st0 : SessionState,
      (refreshHostActivity st0 (some clientId) now).clients = st0.clients :=
    fun st0 => (refreshHostActivity_frame st0 (some clientId) now).2.2.2.2.1
  have hensC : ∀ st0 : SessionState,
      (ensureSessionActive st0 now).clients = st0.clients := by
    intro st0
    simp only [ensureSessionActive]
    (repeat' split) <;> rfl
  by_cases hsnap : data0.type = some "snapshot"
  · refine ⟨refreshHostActivity (ensureSessionActive
        { st with storage := { st.storage with
            snapshot := some (wsDefault st data0 clientId) } } now)
        (some clientId) now, [], ?_, ?_, ?_⟩
    · rw [hrefC, hensC]
    · simp [wsMessageStep, hcid, hg', hsnap, hre, wsDefault]
    · simp [wsMessageStep, hcid, hg', hsnap, hre, wsDefault]
  · by_cases hclaim : data0.type = some "host-claim"
    · refine ⟨refreshHostActivity
        (persistAndBroadcast
          (claimHost (ensureSessionActive st now) clientId now).1
          (hostAckEnvelope
            (if truthyS st.sessionId then st.sessionId else data0.session)
            clientId (claimHost (ensureSessionActive st now) clientId now).2
            now)
          {} now).1
        (some clientId) now,
        [((persistAndBroadcast
            (claimHost (ensureSessionActive st now) clientId now).1
            (hostAckEnvelope
              (if truthyS st.sessionId then st.sessionId else data0.session)
              clientId (claimHost (ensureSessionActive st now) clientId now).2
              now)
            {} now).2.1,
          (persistAndBroadcast
            (claimHost (ensureSessionActive st now) clientId now).1
            (hostAckEnvelope
              (if truthyS st.sessionId then st.sessionId else data0.session)
              clientId (claimHost (ensureSessionActive st now) clientId now).2
              now)
            {} now).2.2)], ?_, ?_, ?_⟩
      · rw [hrefC, (pAB_frame _ _ _ _).2.2.1,
          (claimHost_frame _ _ _).2.2.2.1, hensC]
      · rw [wsMessageStep_hostClaim st data0 ws now clientId hcid hc hs hclaim]
      · rw [wsMessageStep_hostClaim st data0 ws now clientId hcid hc hs hclaim]
        rfl
    · refine ⟨refreshHostActivity (ensureSessionActive st now)
        (some clientId) now, [], ?_, ?_, ?_⟩
      · rw [hrefC, hensC]
      · simp [wsMessageStep, hcid, hg', hsnap, hclaim, hre, wsDefault]
      · simp [wsMessageStep, hcid, hg', hsnap, hclaim, hre, wsDefault]

/-! The freshly appended envelope is in the stored history, and stays the
most recent entry, so it also survives one further append. -/

theorem mem_pAB_messages (st : SessionState) (msg : Envelope)
    (opts : BroadcastOpts) (now : Nat) (h : opts.transient = false) :
    (persistAndBroadcast st msg opts now).2.1 ∈
      (persistAndBroadcast st msg opts now).1.messages := by
  rw [(pAB_messages_append st msg opts now h).1, pAB_msg]
  have hM : 1 ≤ MAX_HISTORY := by decide
  exact mem_last_drop _ _ _ (by omega)

theorem getLast?_pAB_messages (st : SessionState) (msg : Envelope)
    (opts : BroadcastOpts) (now : Nat) (h : opts.transient = false) :
    (persistAndBroadcast st msg opts now).1.messages.getLast? =
      some (persistAndBroadcast st msg opts now).2.1 := by
  rw [(pAB_messages_append st msg opts now h).1, pAB_msg]
  have hM : 1 ≤ MAX_HISTORY := by decide
  rw [drop_append_le _ _ (by omega)]
  exact List.getLast?_concat _

theorem pAB_preserves_last (st : SessionState) (msg : Envelope)
    (opts : BroadcastOpts) (now : Nat) (x : Envelope)
    (hx : st.messages.getLast? = some x) :
    x ∈ (persistAndBroadcast st msg opts now).1.messages := by
  by_cases h : opts.transient = true
  · rw [(pAB_messages_transient st msg opts now h).1]
    exact List.mem_of_getLast?_eq_some hx
  · have h' : opts.transient = false := by
      cases hb : opts.transient
      · rfl
      · exact absurd hb h
    rw [(pAB_messages_append st msg opts now h').1]
    obtain ⟨l', hl⟩ := List.getLast?_eq_some_iff.mp hx
    rw [hl, List.append_assoc]
    apply mem_drop_append (by simp)
    have hM : 2 ≤ MAX_HISTORY := by decide
    simp only [List.length_append, List.length_cons, List.length_nil]
    omega

/-! The claims. -/

/-- C1: within one lifecycle generation of a worker session (a run that
starts at `seq = 0` and during which no inactivity reset fires), every
processed message — push path, pull path, synthetic host-ack and
transient alike — is assigned a sequence number exactly one greater than
the previous one, starting at 1: the assigned values are exactly
`1, 2, …, n` in processing order, hence strictly increasing with no
repeats, totally ordering the generation's messages.  The in-memory
server's POST and socket handlers assign by the same `++seq` rule. -/
theorem seq_assignment_contiguous_within_generation
    (st : SessionState) (ops : List Op)
    (h0 : st.seq = 0) (h : (runOps st ops).2.2 = false) :
    (runOps st ops).2.1.map (fun o => o.1.seq) =
      List.range' 1 (runOps st ops).2.1.length ∧
    ∀ (s : ServerSession) (msgs : List Envelope), s.seq = 0 →
      (serverRun s msgs).2.map Envelope.seq = List.range' 1 msgs.length := by
  constructor
  · have hm := (runOps_seq ops st h).1
    rw [h0] at hm
    simpa using hm
  · intro s msgs hs
    have hm := (serverRun_seq msgs s).1
    rw [hs] at hm
    simpa using hm

/-- Witness for C1: a concrete five-operation trace (connect, socket
host-claim, transient post, poll, close) stays within the resume window
and is stamped `1, 2, 3`. -/
theorem seq_assignment_contiguous_within_generation_witness :
    ({} : SessionState).seq = 0 ∧
    (runOps {} traceSample).2.2 = false ∧
    ((runOps {} traceSample).2.1.map (fun o => o.1.seq) =
        List.range' 1 (runOps {} traceSample).2.1.length ∧
      ∀ (s : ServerSession) (msgs : List Envelope), s.seq = 0 →
        (serverRun s msgs).2.map Envelope.seq = List.range' 1 msgs.length) :=
  ⟨rfl, by decide,
    seq_assignment_contiguous_within_generation {} traceSample rfl (by decide)⟩

/-- C2 counterexample: the in-memory server's append/broadcast step
pushes a transient envelope into history — the stored history changes
although the claim requires it unchanged for transient envelopes. -/
theorem server_push_appends_transient :
    (serverProcess {} { session := "s", transient := true }).1.messages =
      [{ session := "s", transient := true, seq := 1 }] ∧
    ({ session := "s", transient := true : Envelope }).transient = true := by
  decide

/-- C2 (amended): in the worker's `persistAndBroadcast` the `seq` counter
is incremented, stamped on the envelope and persisted unconditionally
(also for transient envelopes); a transient envelope leaves the stored
history unchanged, and otherwise the envelope is appended with the oldest
entries evicted first so the history never exceeds `MAX_HISTORY`.  The
in-memory server assigns and bounds identically but appends transient
envelopes too. -/
theorem append_step_assigns_seq_and_bounds_history
    (st : SessionState) (msg : Envelope) (opts : BroadcastOpts) (now : Nat)
    (s : ServerSession) (m : Envelope) :
    ((persistAndBroadcast st msg opts now).1.seq = st.seq + 1 ∧
     (persistAndBroadcast st msg opts now).2.1.seq = st.seq + 1 ∧
     (persistAndBroadcast st msg opts now).1.storage.seq = st.seq + 1) ∧
    (opts.transient = true →
      (persistAndBroadcast st msg opts now).1.messages = st.messages ∧
      (persistAndBroadcast st msg opts now).1.storage.messages =
        st.storage.messages) ∧
    (opts.transient = false →
      (persistAndBroadcast st msg opts now).1.messages =
        (st.messages ++ [{ msg with seq := st.seq + 1 }]).drop
          (st.messages.length + 1 - MAX_HISTORY) ∧
      (persistAndBroadcast st msg opts now).1.messages.length ≤
        MAX_HISTORY) ∧
    ((serverProcess s m).1.seq = s.seq + 1 ∧
     (serverProcess s m).2.seq = s.seq + 1 ∧
     (serverProcess s m).1.messages =
       (s.messages ++ [{ m with seq := s.seq + 1 }]).drop
         (s.messages.length + 1 - SERVER_MAX_HISTORY) ∧
     (serverProcess s m).1.messages.length ≤ SERVER_MAX_HISTORY) := by
  have hsrv : (serverProcess s m).1.messages =
      (s.messages ++ [{ m with seq := s.seq + 1 }]).drop
        (s.messages.length + 1 - SERVER_MAX_HISTORY) := by
    simp only [serverProcess, pushMessage]
    split
    · next hlen => simp
    · next hlen =>
        have h0 : s.messages.length + 1 - SERVER_MAX_HISTORY = 0 := by
          simp only [List.length_append, List.length_cons, List.length_nil]
            at hlen
          omega
        simp [h0]
  refine ⟨⟨pAB_state_seq st msg opts now, by simp [pAB_msg],
      (pAB_frame st msg opts now).2.2.2.2.2.2⟩,
    fun h => pAB_messages_transient st msg opts now h,
    fun h => ⟨(pAB_messages_append st msg opts now h).1, ?_⟩,
    by simp only [serverProcess, pushMessage], by simp [serverProcess],
    hsrv, ?_⟩
  · rw [(pAB_messages_append st msg opts now h).1]
    exact drop_bound _ _ _
  · rw [hsrv]
    exact drop_bound _ _ _

/-- Witness for C2: the worker append at a concrete transient and a
concrete persistent envelope, and the server append. -/
theorem append_step_assigns_seq_and_bounds_history_witness :
    (({ transient := true : BroadcastOpts }).transient = true ∧
      (persistAndBroadcast stWired { session := "s" }
        { transient := true } 11).1.messages = stWired.messages) ∧
    (({} : BroadcastOpts).transient = false ∧
      (persistAndBroadcast stWired { session := "s" } {} 11).1.messages.length
        ≤ MAX_HISTORY) :=
  ⟨⟨rfl, ((append_step_assigns_seq_and_bounds_history stWired
      { session := "s" } { transient := true } 11 {} {}).2.1 rfl).1⟩,
   ⟨rfl, ((append_step_assigns_seq_and_bounds_history stWired
      { session := "s" } {} 11 {} {}).2.2.1 rfl).2⟩⟩

/-- C3 counterexample: polled with an empty `clientId`, the replay filter
returns an envelope whose `from` equals that `clientId` (the empty
string), because the self-exclusion check `clientId && from === clientId`
is skipped for a falsy `clientId`. -/
theorem since_filter_empty_clientId_returns_own_message :
    ({ session := "s", «from» := some "", seq := 1 : Envelope } ∈
        sinceFilter [{ session := "s", «from» := some "", seq := 1 }] 0 "") ∧
    ({ session := "s", «from» := some "", seq := 1 : Envelope }).«from» =
      some "" := by
  decide

/-- C3 (amended): every envelope returned by `since(N, clientId)` has
`seq > N` and, when its `to` is truthy, `to = clientId`; when `clientId`
itself is non-empty, no returned envelope has `from = clientId`.  (A poll
with an empty `clientId` can be handed an envelope whose `from` is the
empty string.) -/
theorem since_filter_clauses (messages : List Envelope) (since : Nat)
    (clientId : String) (e : Envelope)
    (he : e ∈ sinceFilter messages since clientId) :
    since < e.seq ∧
    (truthyO e.«to» = true → e.«to» = some clientId) ∧
    (truthyS clientId = true → e.«from» ≠ some clientId) := by
  simp only [sinceFilter, List.mem_filter] at he
  obtain ⟨-, hcond⟩ := he
  have h1 : ¬ e.seq ≤ since := by
    intro h1
    rw [if_pos h1] at hcond
    exact Bool.noConfusion hcond
  rw [if_neg h1] at hcond
  have h2 : (truthyO e.«to» && e.«to» != some clientId) = false := by
    cases hb : (truthyO e.«to» && e.«to» != some clientId)
    · rfl
    · rw [if_pos hb] at hcond
      exact Bool.noConfusion hcond
  rw [if_neg (by simp [h2])] at hcond
  have h3 : (truthyS clientId && e.«from» == some clientId) = false := by
    cases hb : (truthyS clientId && e.«from» == some clientId)
    · rfl
    · rw [if_pos hb] at hcond
      exact Bool.noConfusion hcond
  refine ⟨by omega, ?_, ?_⟩
  · intro hto
    rw [hto, Bool.true_and] at h2
    simpa using h2
  · intro hcid
    rw [hcid, Bool.true_and] at h3
    simpa using h3

/-- Witness for C3: a unicast envelope polled by its addressee. -/
theorem since_filter_clauses_witness :
    (envAliceToBob ∈ sinceFilter [envAliceToBob] 1 "bob") ∧
    (1 < envAliceToBob.seq ∧
      (truthyO envAliceToBob.«to» = true →
        envAliceToBob.«to» = some "bob") ∧
      (truthyS "bob" = true → envAliceToBob.«from» ≠ some "bob")) :=
  ⟨by decide, since_filter_clauses [envAliceToBob] 1 "bob" envAliceToBob
    (by decide)⟩

/-- C4: a host-claim from candidate `c` at time `now` is granted iff no
host is currently set (falsy `hostId`), or `now - hostUpdatedAt` exceeds
the stale window, or `c` is the incumbent; every grant writes
`hostId := c` and `hostUpdatedAt := now` both in memory and in durable
storage, and a denial leaves the session state entirely unchanged.  The
hypothesis (a set host has a nonzero refresh stamp) is an invariant of
every reachable state: the two fields are only written together with a
positive wall clock, and cleared together by the lifecycle reset. -/
theorem claimHost_grant_characterization (st : SessionState) (c : String)
    (now : Nat) (hinv : truthyO st.hostId = true → st.hostUpdatedAt ≠ 0) :
    ((claimHost st c now).2.granted = true ↔
      (truthyO st.hostId = false ∨
       HOST_STALE_MS < now - st.hostUpdatedAt ∨ st.hostId = some c)) ∧
    ((claimHost st c now).2.granted = true →
      (claimHost st c now).1.hostId = some c ∧
      (claimHost st c now).1.hostUpdatedAt = now ∧
      (claimHost st c now).1.storage.host = some c ∧
      (claimHost st c now).1.storage.hostUpdatedAt = now) ∧
    ((claimHost st c now).2.granted = false →
      (claimHost st c now).1 = st) := by
  by_cases h1 : truthyO st.hostId = true
  · by_cases h2 : st.hostUpdatedAt = 0
    · exact absurd h2 (hinv h1)
    · by_cases h3 : HOST_STALE_MS < now - st.hostUpdatedAt
      · simp [claimHost, isHostStale, h1, h2, h3]
      · by_cases h4 : st.hostId = some c
        · simp [claimHost, isHostStale, h1, h2, h3, h4]
        · simp [claimHost, isHostStale, h1, h2, h3, h4]
  · have h1' : truthyO st.hostId = false := by
      cases hb : truthyO st.hostId
      · rfl
      · exact absurd hb h1
    simp [claimHost, isHostStale, h1']

/-- Witness for C4: an unclaimed session grants the first candidate. -/
theorem claimHost_grant_characterization_witness :
    (truthyO stWired.hostId = true → stWired.hostUpdatedAt ≠ 0) ∧
    (((claimHost stWired "bob" 11).2.granted = true ↔
        (truthyO stWired.hostId = false ∨
         HOST_STALE_MS < 11 - stWired.hostUpdatedAt ∨
         stWired.hostId = some "bob")) ∧
      ((claimHost stWired "bob" 11).2.granted = true →
        (claimHost stWired "bob" 11).1.hostId = some "bob" ∧
        (claimHost stWired "bob" 11).1.hostUpdatedAt = 11 ∧
        (claimHost stWired "bob" 11).1.storage.host = some "bob" ∧
        (claimHost stWired "bob" 11).1.storage.hostUpdatedAt = 11) ∧
      ((claimHost stWired "bob" 11).2.granted = false →
        (claimHost stWired "bob" 11).1 = stWired)) :=
  ⟨by decide,
   claimHost_grant_characterization stWired "bob" 11 (by decide)⟩

/-- C5 counterexample: a pull-path host-claim with no `from` field is
processed — relayed, persisted, consuming a seq — but produces no
host-ack at all, because the POST handler's guard
`message.type === 'host-claim' && message.from` fails. -/
theorem post_host_claim_without_from_produces_no_ack :
    ((postStep {} { session := "s", type := some "host-claim" } 5).2.map
        (fun o => o.1.type)) = [some "host-claim"] ∧
    (postStep {} { session := "s", type := some "host-claim" } 5).2.countP
        (fun o => o.1.type == some "host-ack") = 0 := by
  decide

/-- C5 (amended): every host-claim that identifies its claimant — on the
pull path a truthy `from`, on the push path the attached client
identifier — produces exactly one synthetic host-ack, addressed to the
claimant, carrying the resulting `hostId` and `granted` flag, stamped
with the next sequence number and entered into history, granted or
denied alike.  A pull-path host-claim without a truthy `from` is relayed
but produces no host-ack. -/
theorem host_claim_produces_single_ack :
    (∀ (st : SessionState) (msg : Envelope) (now : Nat) (f : String),
      msg.type = some "host-claim" → msg.«from» = some f →
      truthyS f = true →
      (postStep st msg now).2.countP
          (fun o => o.1.type == some "host-ack") = 1 ∧
      ((postStep st msg now).2.map Prod.fst).head? =
        some { hostAckEnvelope msg.session f
                (claimHost { st with sessionId := msg.session } f now).2 now
               with seq := st.seq + 1 } ∧
      { hostAckEnvelope msg.session f
          (claimHost { st with sessionId := msg.session } f now).2 now
        with seq := st.seq + 1 } ∈ (postStep st msg now).1.messages) ∧
    (∀ (st : SessionState) (data0 : Envelope) (ws now : Nat)
        (clientId : String),
      mapGet st.clientIds ws = some clientId → truthyS clientId = true →
      truthyS (if truthyS st.sessionId then st.sessionId
               else data0.session) = true →
      data0.type = some "host-claim" →
      (wsMessageStep st (some data0) ws now).outs.countP
          (fun o => o.1.type == some "host-ack") = 1 ∧
      ((wsMessageStep st (some data0) ws now).outs.map Prod.fst).head? =
        some { hostAckEnvelope
                (if truthyS st.sessionId then st.sessionId
                 else data0.session) clientId
                (claimHost (ensureSessionActive st now) clientId now).2 now
               with seq := (ensureSessionActive st now).seq + 1 } ∧
      { hostAckEnvelope
          (if truthyS st.sessionId then st.sessionId else data0.session)
          clientId
          (claimHost (ensureSessionActive st now) clientId now).2 now
        with seq := (ensureSessionActive st now).seq + 1 } ∈
        (wsMessageStep st (some data0) ws now).state.messages) := by
  constructor
  · intro st msg now f ht hf htr
    rw [postStep_hostClaim st msg now f ht hf htr]
    refine ⟨?_, ?_, ?_⟩
    · simp [List.countP_cons, pAB_msg, hostAckEnvelope, ht]
    · simp [pAB_msg, claimHost_frame, hostAckEnvelope]
    · have hack : (persistAndBroadcast
          (claimHost { st with sessionId := msg.session } f now).1
          (hostAckEnvelope msg.session f
            (claimHost { st with sessionId := msg.session } f now).2 now)
          {} now).2.1 =
          { hostAckEnvelope msg.session f
              (claimHost { st with sessionId := msg.session } f now).2 now
            with seq := st.seq + 1 } := by
        rw [pAB_msg, (claimHost_frame _ _ _).1]
      rw [← hack]
      apply pAB_preserves_last
      rw [(refreshHostActivity_frame _ _ _).2.1]
      exact getLast?_pAB_messages _ _ _ _ rfl
  · intro st data0 ws now clientId hcid hc hs ht
    rw [wsMessageStep_hostClaim st data0 ws now clientId hcid hc hs ht]
    refine ⟨?_, ?_, ?_⟩
    · simp [List.countP_cons, pAB_msg, hostAckEnvelope, wsDefault, ht]
    · simp [pAB_msg, claimHost_frame, hostAckEnvelope]
    · have hack : (persistAndBroadcast
          (claimHost (ensureSessionActive st now) clientId now).1
          (hostAckEnvelope
            (if truthyS st.sessionId then st.sessionId else data0.session)
            clientId
            (claimHost (ensureSessionActive st now) clientId now).2 now)
          {} now).2.1 =
          { hostAckEnvelope
              (if truthyS st.sessionId then st.sessionId else data0.session)
              clientId
              (claimHost (ensureSessionActive st now) clientId now).2 now
            with seq := (ensureSessionActive st now).seq + 1 } := by
        rw [pAB_msg, (claimHost_frame _ _ _).1]
      rw [← hack]
      apply pAB_preserves_last
      rw [(refreshHostActivity_frame _ _ _).2.1]
      exact getLast?_pAB_messages _ _ _ _ rfl

/-- Witness for C5: a concrete claim on each path. -/
theorem host_claim_produces_single_ack_witness :
    ((postStep stWired claimFromBob 11).2.countP
      (fun o => o.1.type == some "host-ack") = 1) ∧
    ((wsMessageStep stWired
        (some { session := "s", type := some "host-claim" }) 1 11).outs.countP
      (fun o => o.1.type == some "host-ack") = 1) :=
  ⟨(host_claim_produces_single_ack.1 stWired claimFromBob
      11 "bob" rfl rfl (by decide)).1,
   (host_claim_produces_single_ack.2 stWired
      { session := "s", type := some "host-claim" } 1 11 "alice"
      (by decide) (by decide) (by decide) rfl).1⟩

/-- C6 counterexample: on the socket path the snapshot store runs before
the lifecycle check, so a snapshot message arriving on an expired session
is stored and then immediately wiped by its own reset — the operation
ends with no stored snapshot, whereas a reset performed before any
processing (as the claim requires) would leave the fresh snapshot
stored. -/
theorem ws_snapshot_on_expired_session_wiped :
    (wsMessageStep stIdle (some { session := "s", type := some "snapshot" })
        1 (1 + SESSION_RESUME_WINDOW_MS + 1)).state.storage.snapshot =
      none ∧
    (wsMessageStep
        (ensureSessionActive stIdle (1 + SESSION_RESUME_WINDOW_MS + 1))
        (some { session := "s", type := some "snapshot" })
        1 (1 + SESSION_RESUME_WINDOW_MS + 1)).state.storage.snapshot ≠
      none := by
  decide

/-- C6 (amended): an operation arriving after the resume window resets
the session — `seq := 0`, history cleared, host cleared,
`lastActivity := now`, snapshot deleted, all persisted.  On the HTTP
paths the reset runs at `fetch` entry, before any method processing; on
the socket message path the snapshot-store dispatch runs first, so an
expired-session snapshot message has its just-stored snapshot wiped by
the reset and the operation completes with no stored snapshot. -/
theorem expired_session_reset_on_operation (st : SessionState) (now : Nat)
    (hla : st.lastActivity ≠ 0)
    (hw : SESSION_RESUME_WINDOW_MS < now - st.lastActivity) :
    ((ensureSessionActive st now).seq = 0 ∧
     (ensureSessionActive st now).messages = [] ∧
     (ensureSessionActive st now).hostId = none ∧
     (ensureSessionActive st now).hostUpdatedAt = 0 ∧
     (ensureSessionActive st now).lastActivity = now ∧
     (ensureSessionActive st now).storage.seq = 0 ∧
     (ensureSessionActive st now).storage.messages = [] ∧
     (ensureSessionActive st now).storage.host = none ∧
     (ensureSessionActive st now).storage.hostUpdatedAt = 0 ∧
     (ensureSessionActive st now).storage.lastActivity = now ∧
     (ensureSessionActive st now).storage.snapshot = none) ∧
    (∀ req : Req, fetchStep st req now =
      fetchDispatch (ensureSessionActive st now) req now true) ∧
    (∀ (data0 : Envelope) (ws : Nat) (clientId : String),
      mapGet st.clientIds ws = some clientId → truthyS clientId = true →
      truthyS (if truthyS st.sessionId then st.sessionId
               else data0.session) = true →
      data0.type = some "snapshot" →
      (wsMessageStep st (some data0) ws now).state.storage.snapshot =
        none) := by
  refine ⟨?_, ?_, ?_⟩
  · rw [ensureSessionActive_reset st now hla hw]
    simp
  · intro req
    rw [fetchStep, expiredB_true st now hla hw]
  · intro data0 ws clientId hcid hcl hses htype
    have hg' : (!truthyS clientId ||
        !truthyS (if truthyS st.sessionId then st.sessionId
                  else data0.session)) = false := by
      simp [hcl, hses]
    have hstep : (wsMessageStep st (some data0) ws now).state =
        (persistAndBroadcast
          (refreshHostActivity
            (ensureSessionActive
              { st with storage := { st.storage with
                  snapshot := some (wsDefault st data0 clientId) } } now)
            (some clientId) now)
          (wsDefault st data0 clientId)
          { transient := data0.transient, skipSenderId := some clientId }
          now).1 := by
      simp [wsMessageStep, hcid, hg', htype, wsDefault]
    rw [hstep, (pAB_frame _ _ _ _).2.2.2.2.2.1,
      (refreshHostActivity_frame _ _ _).2.2.2.2.2.2.2.2,
      ensureSessionActive_reset
        { st with storage := { st.storage with
            snapshot := some (wsDefault st data0 clientId) } } now hla hw]

/-- Witness for C6: the idle session reset by one late operation. -/
theorem expired_session_reset_on_operation_witness :
    stIdle.lastActivity ≠ 0 ∧
    SESSION_RESUME_WINDOW_MS <
      (1 + SESSION_RESUME_WINDOW_MS + 1) - stIdle.lastActivity ∧
    ((ensureSessionActive stIdle (1 + SESSION_RESUME_WINDOW_MS + 1)).seq =
      0 ∧
     (ensureSessionActive stIdle
        (1 + SESSION_RESUME_WINDOW_MS + 1)).storage.snapshot = none) :=
  ⟨by decide, by decide,
   by
    have h := expired_session_reset_on_operation stIdle
      (1 + SESSION_RESUME_WINDOW_MS + 1) (by decide) (by decide)
    exact ⟨h.1.1, h.1.2.2.2.2.2.2.2.2.2.2⟩⟩

/-- C7 counterexample: a GET poll on an expired session runs the entry
lifecycle check and resets the session — `seq` and `messages` are not as
they were before the call. -/
theorem poll_on_expired_session_resets_state :
    (fetchStep stPolled (Req.get "s" "alice" 0 false)
        (1 + SESSION_RESUME_WINDOW_MS + 1)).state.seq = 0 ∧
    stPolled.seq = 5 ∧
    (fetchStep stPolled (Req.get "s" "alice" 0 false)
        (1 + SESSION_RESUME_WINDOW_MS + 1)).state.messages = [] ∧
    stPolled.messages ≠ [] := by
  decide

/-- C7 (amended): apart from the entry lifecycle check shared by every
operation (which initializes `lastActivity` when unset and resets an
expired session), a poll mutates nothing: when `lastActivity` is set and
within the resume window, `seq`, `messages`, `hostId`, `hostUpdatedAt`,
`lastActivity` and the entire storage record (hence the stored snapshot)
are exactly as before the call, as are both connection maps. -/
theorem poll_preserves_session_state_within_window (st : SessionState)
    (session client : String) (since : Nat) (w : Bool) (now : Nat)
    (hla : st.lastActivity ≠ 0)
    (hw : now - st.lastActivity ≤ SESSION_RESUME_WINDOW_MS) :
    (fetchStep st (Req.get session client since w) now).state.seq =
      st.seq ∧
    (fetchStep st (Req.get session client since w) now).state.messages =
      st.messages ∧
    (fetchStep st (Req.get session client since w) now).state.hostId =
      st.hostId ∧
    (fetchStep st (Req.get session client since w)
      now).state.hostUpdatedAt = st.hostUpdatedAt ∧
    (fetchStep st (Req.get session client since w)
      now).state.lastActivity = st.lastActivity ∧
    (fetchStep st (Req.get session client since w) now).state.storage =
      st.storage ∧
    (fetchStep st (Req.get session client since w) now).state.clients =
      st.clients ∧
    (fetchStep st (Req.get session client since w) now).state.clientIds =
      st.clientIds := by
  have hE := ensureSessionActive_eq_self st now hla hw
  simp only [fetchStep, hE, fetchDispatch]
  (repeat' split) <;> simp

/-- Witness for C7: a poll on a live session changes nothing. -/
theorem poll_preserves_session_state_within_window_witness :
    stPolled.lastActivity ≠ 0 ∧
    2 - stPolled.lastActivity ≤ SESSION_RESUME_WINDOW_MS ∧
    ((fetchStep stPolled (Req.get "s" "alice" 0 false) 2).state.seq =
        stPolled.seq ∧
      (fetchStep stPolled (Req.get "s" "alice" 0 false) 2).state.storage =
        stPolled.storage) :=
  ⟨by decide, by decide,
   by
    have h := poll_preserves_session_state_within_window stPolled
      "s" "alice" 0 false 2 (by decide) (by decide)
    exact ⟨h.1, h.2.2.2.2.2.1⟩⟩

/-- Any recipient the fan-out writes to differs from the excluded
sender. -/
theorem broadcastTargets_ne_sender (clients : List (String × Nat))
    (msg : Envelope) (clientId : String) (hc : truthyS clientId = true) :
    ∀ p ∈ broadcastTargets clients msg (some clientId), p.1 ≠ clientId := by
  intro p hp hEq
  simp only [broadcastTargets, List.mem_filter] at hp
  have h2 := hp.2
  rw [hEq] at h2
  have ht : truthyO (some clientId) = true := hc
  simp [ht] at h2

/-- C8 counterexample: a push-path `reattach` message from a known client
returns early — no envelope is appended, no sequence number is consumed,
nothing is broadcast — although the claim says every push-path message
type ends with append-and-broadcast. -/
theorem ws_reattach_skips_append_broadcast :
    (wsMessageStep stWired (some { session := "s", type := some "reattach" })
        1 11).outs = [] ∧
    (wsMessageStep stWired (some { session := "s", type := some "reattach" })
        1 11).state.seq = stWired.seq ∧
    (wsMessageStep stWired (some { session := "s", type := some "reattach" })
        1 11).state.messages = stWired.messages := by
  decide

/-- C8 (amended): every push-path message that parses, arrives from a
known client, resolves a session, and is not of type `reattach`, ends
with the session/`from`-defaulted envelope going through
append-and-broadcast: it is stamped with the freshest sequence number,
persisted into history unless transient, and offered to the live
connections selected by the fan-out filters, never including the sending
client identifier.  (`reattach` only re-attaches the socket and
refreshes host activity, with no append or broadcast.) -/
theorem ws_message_ends_with_append_broadcast (st : SessionState)
    (data0 : Envelope) (ws now : Nat) (clientId : String)
    (hcid : mapGet st.clientIds ws = some clientId)
    (hc : truthyS clientId = true)
    (hs : truthyS (if truthyS st.sessionId then st.sessionId
                   else data0.session) = true)
    (hre : data0.type ≠ some "reattach") :
    ∃ (stMid : SessionState) (outs0 : List Out),
      stMid.clients = st.clients ∧
      (wsMessageStep st (some data0) ws now).state =
        (persistAndBroadcast stMid (wsDefault st data0 clientId)
          { transient := data0.transient, skipSenderId := some clientId }
          now).1 ∧
      (wsMessageStep st (some data0) ws now).outs =
        outs0 ++
          [((persistAndBroadcast stMid (wsDefault st data0 clientId)
              { transient := data0.transient, skipSenderId := some clientId }
              now).2.1,
            (persistAndBroadcast stMid (wsDefault st data0 clientId)
              { transient := data0.transient, skipSenderId := some clientId }
              now).2.2)] ∧
      (persistAndBroadcast stMid (wsDefault st data0 clientId)
          { transient := data0.transient, skipSenderId := some clientId }
          now).2.1 =
        { wsDefault st data0 clientId with seq := stMid.seq + 1 } ∧
      (wsMessageStep st (some data0) ws now).state.seq = stMid.seq + 1 ∧
      (data0.transient = false →
        (persistAndBroadcast stMid (wsDefault st data0 clientId)
            { transient := data0.transient, skipSenderId := some clientId }
            now).2.1 ∈
          (wsMessageStep st (some data0) ws now).state.messages) ∧
      (data0.transient = true →
        (wsMessageStep st (some data0) ws now).state.messages =
          stMid.messages) ∧
      (persistAndBroadcast stMid (wsDefault st data0 clientId)
          { transient := data0.transient, skipSenderId := some clientId }
          now).2.2 =
        broadcastTargets st.clients
          { wsDefault st data0 clientId with seq := stMid.seq + 1 }
          (some clientId) ∧
      (∀ p ∈ (persistAndBroadcast stMid (wsDefault st data0 clientId)
          { transient := data0.transient, skipSenderId := some clientId }
          now).2.2, p.1 ≠ clientId) := by
  obtain ⟨stMid, outs0, hcl, hstate, houts⟩ :=
    wsMessageStep_nonReattach st data0 ws now clientId hcid hc hs hre
  refine ⟨stMid, outs0, hcl, hstate, houts, pAB_msg _ _ _ _, ?_, ?_, ?_,
    ?_, ?_⟩
  · rw [hstate, pAB_state_seq]
  · intro hT
    rw [hstate]
    exact mem_pAB_messages stMid _ _ now hT
  · intro hT
    rw [hstate]
    exact (pAB_messages_transient stMid _ _ now hT).1
  · rw [pAB_att, hcl]
  · rw [pAB_att, hcl]
    exact broadcastTargets_ne_sender st.clients _ clientId hc

/-- Witness for C8: a plain signal frame from the attached client. -/
theorem ws_message_ends_with_append_broadcast_witness :
    mapGet stWired.clientIds 1 = some "alice" ∧
    (∃ (stMid : SessionState) (outs0 : List Out),
      stMid.clients = stWired.clients ∧
      (wsMessageStep stWired (some { session := "s" }) 1 11).state =
        (persistAndBroadcast stMid
          (wsDefault stWired { session := "s" } "alice")
          { transient := false, skipSenderId := some "alice" } 11).1 ∧
      (wsMessageStep stWired (some { session := "s" }) 1 11).outs =
        outs0 ++
          [((persistAndBroadcast stMid
              (wsDefault stWired { session := "s" } "alice")
              { transient := false, skipSenderId := some "alice" } 11).2.1,
            (persistAndBroadcast stMid
              (wsDefault stWired { session := "s" } "alice")
              { transient := false, skipSenderId := some "alice" } 11).2.2)] ∧
      (persistAndBroadcast stMid
          (wsDefault stWired { session := "s" } "alice")
          { transient := false, skipSenderId := some "alice" } 11).2.1 =
        { wsDefault stWired { session := "s" } "alice" with
            seq := stMid.seq + 1 } ∧
      (wsMessageStep stWired (some { session := "s" }) 1 11).state.seq =
        stMid.seq + 1 ∧
      (({ session := "s" } : Envelope).transient = false →
        (persistAndBroadcast stMid
            (wsDefault stWired { session := "s" } "alice")
            { transient := false, skipSenderId := some "alice" } 11).2.1 ∈
          (wsMessageStep stWired (some { session := "s" }) 1
            11).state.messages) ∧
      (({ session := "s" } : Envelope).transient = true →
        (wsMessageStep stWired (some { session := "s" }) 1
            11).state.messages = stMid.messages) ∧
      (persistAndBroadcast stMid
          (wsDefault stWired { session := "s" } "alice")
          { transient := false, skipSenderId := some "alice" } 11).2.2 =
        broadcastTargets stWired.clients
          { wsDefault stWired { session := "s" } "alice" with
              seq := stMid.seq + 1 }
          (some "alice") ∧
      (∀ p ∈ (persistAndBroadcast stMid
          (wsDefault stWired { session := "s" } "alice")
          { transient := false, skipSenderId := some "alice" } 11).2.2,
        p.1 ≠ "alice")) :=
  ⟨by decide,
   ws_message_ends_with_append_broadcast stWired { session := "s" } 1 11
     "alice" (by decide) (by decide) (by decide) (by decide)⟩

/-- C9 counterexample: in the worker's fan-out, a failed delivery is
swallowed — it removes nothing from the connection registry: the
recipients are attempted regardless of writability, and `clients` is
unchanged, although the claim says the failed recipient's mapping is
removed. -/
theorem worker_fanout_failure_keeps_registry :
    (persistAndBroadcast stWired { session := "s" } {} 11).2.2 =
      [("alice", 1)] ∧
    deliveredTo (persistAndBroadcast stWired { session := "s" } {} 11).2.2
      (fun _ => false) = [] ∧
    (persistAndBroadcast stWired { session := "s" } {} 11).1.clients =
      stWired.clients := by
  decide

/-- C9 (amended): a delivery failure never aborts the fan-out and never
fails the triggering operation.  In the worker, send errors are swallowed
entirely: the attempted recipients do not depend on writability and the
registry maps are left unchanged.  In the in-memory `Room`
(`broadcastRaw`), a throwing socket is deleted from the registry — only
that one mapping — while every writable socket still receives the
message. -/
theorem fanout_failure_isolation :
    (∀ (st : SessionState) (msg : Envelope) (opts : BroadcastOpts)
        (now : Nat),
      (persistAndBroadcast st msg opts now).1.clients = st.clients ∧
      (persistAndBroadcast st msg opts now).1.clientIds = st.clientIds ∧
      (persistAndBroadcast st msg opts now).2.2 =
        broadcastTargets st.clients { msg with seq := st.seq + 1 }
          opts.skipSenderId) ∧
    (∀ (clients : List Nat) (sendOk : Nat → Bool),
      (broadcastRaw clients sendOk).1 = clients.filter sendOk ∧
      (broadcastRaw clients sendOk).2 = clients.filter sendOk ∧
      ∀ s ∈ clients,
        (sendOk s = true → s ∈ (broadcastRaw clients sendOk).2 ∧
          s ∈ (broadcastRaw clients sendOk).1) ∧
        (sendOk s = false → s ∉ (broadcastRaw clients sendOk).1)) := by
  constructor
  · intro st msg opts now
    exact ⟨(pAB_frame st msg opts now).2.2.1,
      (pAB_frame st msg opts now).2.2.2.1, pAB_att st msg opts now⟩
  · intro clients sendOk
    obtain ⟨h1, h2⟩ := broadcastRaw_spec clients sendOk
    refine ⟨h1, h2, ?_⟩
    intro s hsm
    constructor
    · intro hok
      rw [h1, h2]
      exact ⟨List.mem_filter.mpr ⟨hsm, hok⟩, List.mem_filter.mpr ⟨hsm, hok⟩⟩
    · intro hfail
      rw [h1]
      intro hmem
      have := (List.mem_filter.mp hmem).2
      rw [hfail] at this
      exact Bool.noConfusion this

/-- Witness for C9: one live recipient, one dead socket in the Room. -/
theorem fanout_failure_isolation_witness :
    ((persistAndBroadcast stWired { session := "s" } {} 11).1.clients =
        stWired.clients ∧
      (broadcastRaw [7, 8] (fun x => x == 8)).1 = [8] ∧
      (broadcastRaw [7, 8] (fun x => x == 8)).2 = [8]) :=
  ⟨(fanout_failure_isolation.1 stWired { session := "s" } {} 11).1,
   by
    have h := fanout_failure_isolation.2 [7, 8] (fun x => x == 8)
    rw [h.1]
    decide,
   by
    have h := fanout_failure_isolation.2 [7, 8] (fun x => x == 8)
    rw [h.2.1]
    decide⟩

/-- C10 counterexample: the operations alone do not keep the maps mutual
inverses — attaching one socket under a second client identifier (a call
pattern the worker itself never makes) leaves `clients` pointing both
identifiers at the socket while `clientIds` names only the newer one. -/
theorem attach_rebound_socket_breaks_inverse :
    ¬ registryInverse (regRun {} regTraceRebind) := by
  intro h
  have h1 := (h "a" 1).mp (by decide)
  exact absurd h1 (by decide)

/-- C10 (amended): after any sequence of `attachClient` and
`webSocketClose` operations in which no attach re-binds a socket that is
currently attached to a different client identifier — the guard satisfied
at every call site, since upgrades attach fresh sockets and `reattach`
re-attaches a socket under its own identifier — the registry maps are
mutual inverses: `clients.get c = some s` exactly when
`clientIds.get s = some c`; in particular fan-out never writes to a
replaced or detached socket's stale mapping. -/
theorem registry_maps_mutual_inverse (st : SessionState) (ops : List RegOp)
    (h1 : registryInverse st) (h2 : registryWF st)
    (hok : regRunOk st ops = true) :
    registryInverse (regRun st ops) :=
  (regRun_preserves_registry ops st h1 h2 hok).1

/-- Witness for C10: a fresh registry, two attaches, a reattach-style
rebind of `a`, and a close. -/
theorem registry_maps_mutual_inverse_witness :
    regRunOk {} regTraceSample = true ∧
    registryInverse (regRun {} regTraceSample) :=
  ⟨by decide,
   registry_maps_mutual_inverse {} regTraceSample
     (by intro c s; simp [mapGet])
     (by simp [registryWF])
     (by decide)⟩

end Joy
